import Mathlib

/-! # pcie-lat: the latency measurement driver, embedded in Lean

A shallow embedding of `src/pcie-lat.c`.  A definition that renders a C function,
macro or structure of that file keeps its name.

Conventions

* C unsigned integers are `Nat`, C signed integers are `Int`; every place where
  the C arithmetic wraps or converts carries an explicit `%`.
* The hardware is an explicit environment: `tsc k` is the register pair
  `(EDX, EAX)` delivered by the `k`-th counter read, and a `cpu` value records
  how many counter reads have been executed, which MMIO addresses were read by
  `readl` and which elements of the result buffer were stored to.
* A kernel fault (a store through a NULL pointer or past the end of an
  allocation, an array index outside `bar[6]`) is the outcome `none`.
* `sscanf` is not part of the driver: each `*_store` function takes the value
  `sscanf` parsed, and `count`, the number of bytes written to the attribute.
  sysfs bounds `count` by the page size, so returning it as `ssize_t` keeps its
  value.
* `preempt_disable`, `raw_local_irq_save`, `ndelay` and the `pr_info` and
  `dev_info` messages have no effect on the data and are left out.
-/

namespace PcieLat

/-! ## Constants -/

/-- Upper limit of the loop count, `LOOPS_UPPER_LIMIT`. -/
def LOOPS_UPPER_LIMIT : Nat := 10000000

/-- Default loop count, `LOOPS_DEFAULT`; the source defines it and never uses it. -/
def LOOPS_DEFAULT : Nat := 100000

/-- Number of iterations of the overhead calibration, `OVERHEAD_MEASURE_LOOPS`. -/
def OVERHEAD_MEASURE_LOOPS : Nat := 1000000

/-- The errno `EPERM`. -/
def EPERM : Int := 1

/-- The errno `ENOMEM`. -/
def ENOMEM : Int := 12

/-- The errno `EFAULT`. -/
def EFAULT : Int := 14

/-- The errno `EINVAL`. -/
def EINVAL : Int := 22

/-- Conversion of a C `int` to `unsigned int`: reduction modulo `2^32`. -/
def to_u32 (x : Int) : Nat := (x % 4294967296).toNat

/-- Conversion of a signed 64-bit value to `unsigned long`: reduction modulo `2^64`. -/
def to_u64 (x : Int) : Nat := (x % 18446744073709551616).toNat

/-- Conversion of an `unsigned long` to a signed 64-bit type (`loff_t`, `ssize_t`). -/
def to_s64 (x : Nat) : Int :=
  if x % 18446744073709551616 < 9223372036854775808 then ((x % 18446744073709551616 : Nat) : Int)
  else ((x % 18446744073709551616 : Nat) : Int) - 18446744073709551616

/-! ## Data model -/

/-- One sample, `struct result_data_t`: two `u64` fields, 16 bytes. -/
structure result_data_t where
  tsc_start : Nat
  tsc_diff : Nat
deriving DecidableEq, Repr

/-- The value of `sizeof(struct result_data_t)`. -/
def sizeof_result_data_t : Nat := 16

/-- BAR info, `struct bar_t`: `len` is a C `int`, `addr` the mapped address. -/
structure bar_t where
  len : Int
  addr : Nat
deriving DecidableEq, Repr

/-- The options, `struct options_t`: `unsigned int loops`, `unsigned char target_bar`,
`u32 bar_offset`. -/
structure options_t where
  loops : Nat
  target_bar : Nat
  bar_offset : Nat
deriving DecidableEq, Repr

/-- A value of `struct result_data_t *`: NULL, an error pointer (`ERR_PTR`), or a live
allocation holding the listed samples. -/
inductive ptr where
  | null : ptr
  | err (errno : Nat) : ptr
  | mem (cells : List result_data_t) : ptr
deriving DecidableEq, Repr

/-- The samples an allocation holds; NULL and error pointers hold none. -/
def ptr.cells : ptr → List result_data_t
  | ptr.mem d => d
  | _ => []

/-- Allocated capacity behind a pointer, in bytes. -/
def ptr.capacity (p : ptr) : Nat := sizeof_result_data_t * p.cells.length

/-- The kernel test `IS_ERR`: true on error pointers only; NULL is not one. -/
def IS_ERR : ptr → Bool
  | ptr.err _ => true
  | _ => false

/-- The per-device data, `struct pcielat_priv` (the fields the measurement engine uses). -/
structure pcielat_priv where
  bar : List bar_t
  result_data : ptr
  cur_resdata_size_in_bytes : Nat
  options : options_t
deriving DecidableEq, Repr

/-- The observable hardware activity: the number of counter reads executed, the
addresses read with `readl` (oldest first) and the indices of `result_data` stored to
(oldest first). -/
structure cpu where
  reads : Nat
  mmio : List Nat
  stores : List Nat
deriving DecidableEq, Repr

/-! ## Cycle counter -/

/-- The macro `get_tsc_top(high, low)`: `cpuid; rdtsc`, then `EDX` and `EAX` are moved
into the two `u32` variables. -/
def get_tsc_top (tsc : Nat → Nat × Nat) (c : cpu) : Nat × Nat × cpu :=
  ((tsc c.reads).1 % 4294967296, (tsc c.reads).2 % 4294967296, { c with reads := c.reads + 1 })

/-- The macro `get_tsc_bottom(high, low)`: `rdtscp`, the two moves, then `cpuid`. -/
def get_tsc_bottom (tsc : Nat → Nat × Nat) (c : cpu) : Nat × Nat × cpu :=
  ((tsc c.reads).1 % 4294967296, (tsc c.reads).2 % 4294967296, { c with reads := c.reads + 1 })

/-- The warm-up both measurement functions start with: top, bottom, top, bottom, the
values read being overwritten before any use. -/
def warmup (tsc : Nat → Nat × Nat) (c : cpu) : cpu :=
  (get_tsc_bottom tsc (get_tsc_top tsc (get_tsc_bottom tsc (get_tsc_top tsc c).2.2).2.2).2.2).2.2

/-! ## The measurement loop -/

/-- The body of the `for` loop of `do_benchmark` at index `i`: opening timestamp, one
`readl(addr + bar_offset)`, closing timestamp, then the stores into `result_data[i]`.
A store outside the allocation faults. -/
def do_benchmark_body (tsc : Nat → Nat × Nat) (addr bar_offset i : Nat)
    (st : cpu × List result_data_t) : Option (cpu × List result_data_t) :=
  let (tsc_high_before, tsc_low_before, c1) := get_tsc_top tsc st.1
  let c2 : cpu := { c1 with mmio := c1.mmio ++ [addr + bar_offset] }
  let (tsc_high_after, tsc_low_after, c3) := get_tsc_bottom tsc c2
  let tsc_start := ((tsc_high_before <<< 32) ||| tsc_low_before) % 18446744073709551616
  let tsc_end := ((tsc_high_after <<< 32) ||| tsc_low_after) % 18446744073709551616
  let tsc_diff := (tsc_end + 18446744073709551616 - tsc_start) % 18446744073709551616
  if i < st.2.length then
    some ({ c3 with stores := c3.stores ++ [i] },
          st.2.set i { tsc_start := tsc_start, tsc_diff := tsc_diff })
  else none

/-- The loop `for (i = 0; i < loops; i++)` of `do_benchmark`, entered at index `i` with
`k = loops - i` passes left. -/
def do_benchmark_loop (tsc : Nat → Nat × Nat) (addr bar_offset : Nat) :
    Nat → Nat → cpu × List result_data_t → Option (cpu × List result_data_t)
  | 0, _, st => some st
  | k + 1, i, st =>
    (do_benchmark_body tsc addr bar_offset i st).bind
      (do_benchmark_loop tsc addr bar_offset k (i + 1))

/-- The function `do_benchmark`: the warm-up, then `loops` passes of the loop over the
memory `result_data` points to (none behind NULL or an error pointer). -/
def do_benchmark (tsc : Nat → Nat × Nat) (addr bar_offset loops : Nat) (result_data : ptr)
    (c : cpu) : Option (cpu × ptr) :=
  match result_data with
  | ptr.mem d =>
    (do_benchmark_loop tsc addr bar_offset loops 0 (warmup tsc c, d)).map
      (fun st => (st.1, ptr.mem st.2))
  | p =>
    (do_benchmark_loop tsc addr bar_offset loops 0 (warmup tsc c, [])).map
      (fun st => (st.1, p))

/-! ## Overhead calibration -/

/-- The body of the loop of `get_tsc_overhead`: a top and a bottom timestamp, then
`sum += tsc_low_after - tsc_low_before`, the difference taken in `u32` arithmetic and
the sum in `unsigned long` arithmetic. -/
def get_tsc_overhead_body (tsc : Nat → Nat × Nat) (st : cpu × Nat) : cpu × Nat :=
  let (_, tsc_low_before, c1) := get_tsc_top tsc st.1
  let (_, tsc_low_after, c2) := get_tsc_bottom tsc c1
  (c2, (st.2 + (tsc_low_after + 4294967296 - tsc_low_before) % 4294967296)
        % 18446744073709551616)

/-- The loop of `get_tsc_overhead` with `k` passes left. -/
def get_tsc_overhead_loop (tsc : Nat → Nat × Nat) : Nat → cpu × Nat → cpu × Nat
  | 0, st => st
  | k + 1, st => get_tsc_overhead_loop tsc k (get_tsc_overhead_body tsc st)

/-- The function `get_tsc_overhead`: warm-up, `OVERHEAD_MEASURE_LOOPS` passes with
`sum` starting at 0, then `sum / OVERHEAD_MEASURE_LOOPS` returned as `unsigned int`. -/
def get_tsc_overhead (tsc : Nat → Nat × Nat) (c : cpu) : Nat × cpu :=
  let st := get_tsc_overhead_loop tsc OVERHEAD_MEASURE_LOOPS (warmup tsc c, 0)
  ((st.2 / OVERHEAD_MEASURE_LOOPS) % 4294967296, st.1)

/-- The 64-bit counter value behind the `k`-th read: `EDX:EAX`. -/
def tsc64 (tsc : Nat → Nat × Nat) (k : Nat) : Nat :=
  (tsc k).1 % 4294967296 * 4294967296 + (tsc k).2 % 4294967296

/-! ## sysfs attributes -/

/-- The kernel allocator `vmalloc(size)`: NULL when the allocation fails (`heap = none`),
otherwise `size` bytes of uninitialised memory, whose content `heap` supplies.  It never
returns an error pointer. -/
def vmalloc (heap : Option (Nat → result_data_t)) (size : Nat) : ptr :=
  match heap with
  | none => ptr.null
  | some g => ptr.mem ((List.range (size / sizeof_result_data_t)).map g)

/-- The sysfs store `pcielat_loops_store`; `loops` is the `unsigned int` parsed by
`sscanf`.  `vfree(NULL)` does nothing; the product `loops * sizeof(struct result_data_t)`
is computed in `size_t` and stored into an `unsigned int`. -/
def pcielat_loops_store (heap : Option (Nat → result_data_t)) (priv : pcielat_priv)
    (loops count : Nat) : Int × pcielat_priv :=
  if loops = 0 ∨ loops > LOOPS_UPPER_LIMIT then (-EINVAL, priv)
  else if loops ≠ priv.options.loops then
    let priv1 : pcielat_priv :=
      if priv.result_data = ptr.null then { priv with cur_resdata_size_in_bytes := 0 }
      else priv
    let priv2 : pcielat_priv := { priv1 with options := { priv1.options with loops := loops } }
    let priv3 : pcielat_priv :=
      { priv2 with
        result_data :=
          vmalloc heap ((priv2.options.loops * sizeof_result_data_t) % 18446744073709551616) }
    if IS_ERR priv3.result_data then (-ENOMEM, priv3)
    else
      ((count : Int),
       { priv3 with
         cur_resdata_size_in_bytes :=
           ((priv3.options.loops * sizeof_result_data_t) % 18446744073709551616)
             % 4294967296 })
  else ((count : Int), priv)

/-- The sysfs store `pcielat_target_bar_store`; `bar` is the `unsigned short` parsed by
`sscanf`, stored into an `unsigned char`. -/
def pcielat_target_bar_store (priv : pcielat_priv) (bar count : Nat) : Int × pcielat_priv :=
  if bar ≤ 5 then
    ((count : Int), { priv with options := { priv.options with target_bar := bar % 256 } })
  else ((count : Int), priv)

/-- The sysfs store `pcielat_bar_offset_store`; `offset` is the `unsigned int` parsed by
`sscanf`. -/
def pcielat_bar_offset_store (priv : pcielat_priv) (offset count : Nat) :
    Int × pcielat_priv :=
  if offset % 4 = 0 then
    ((count : Int), { priv with options := { priv.options with bar_offset := offset } })
  else ((count : Int), priv)

/-- The sysfs store `pcielat_measure_store`: the three checks, then `do_benchmark`.
The comparison `bar_offset > (target_bar_len - 4)` is between a `u32` and an `int`, so
the `int` side is converted to `unsigned int`. -/
def pcielat_measure_store (tsc : Nat → Nat × Nat) (priv : pcielat_priv) (c : cpu)
    (count : Nat) : Option (Int × pcielat_priv × cpu) :=
  if priv.options.loops = 0 then some (-EINVAL, priv, c)
  else
    match priv.bar[priv.options.target_bar]? with
    | none => none
    | some b =>
      let target_bar_len : Int := b.len
      if target_bar_len < 0 then some (-EINVAL, priv, c)
      else if priv.options.bar_offset > to_u32 (target_bar_len - 4) then
        some (-EINVAL, priv, c)
      else
        match do_benchmark tsc b.addr priv.options.bar_offset priv.options.loops
            priv.result_data c with
        | none => none
        | some (c', p) => some ((count : Int), { priv with result_data := p }, c')

/-! ## The export path -/

/-- The bytes of a `u64` in memory order (x86_64 is little endian). -/
def u64_bytes (v : Nat) : List Nat :=
  (List.range 8).map (fun k => v / 256 ^ k % 256)

/-- The 16 bytes of one sample: `tsc_start`, then `tsc_diff`. -/
def result_data_bytes (s : result_data_t) : List Nat :=
  u64_bytes s.tsc_start ++ u64_bytes s.tsc_diff

/-- The memory behind `(void *)priv->result_data`, as a flat byte sequence. -/
def ptr.bytes (p : ptr) : List Nat :=
  p.cells.foldr (fun s acc => result_data_bytes s ++ acc) []

/-- The kernel routine `copy_to_user(buf, src + off, n)`: `room` is the number of
writable bytes at the user address `buf`.  It returns the number of bytes it could not
copy, and the bytes it delivered.  Reading outside the source allocation faults. -/
def copy_to_user (room : Nat) (src : List Nat) (off : Int) (n : Nat) :
    Option (Nat × List Nat) :=
  if n = 0 then some (0, [])
  else if off < 0 ∨ (src.length : Int) < off + n then none
  else some (n - min n room, (src.drop off.toNat).take (min n room))

/-- The file operation `dev_read`; the result is the return value, the new `*ppos` and
the bytes delivered to the user buffer.  `*ppos >= size` compares as `long long`;
`*ppos + count` is computed in `unsigned long`; `size - *ppos` in `long long`, then
stored into the `size_t count`. -/
def dev_read (priv : pcielat_priv) (room count : Nat) (ppos : Int) :
    Option (Int × Int × List Nat) :=
  if ppos ≥ (priv.cur_resdata_size_in_bytes : Int) then some (0, ppos, [])
  else
    let count1 : Nat :=
      if (to_u64 ppos + count) % 18446744073709551616 > priv.cur_resdata_size_in_bytes then
        to_u64 ((priv.cur_resdata_size_in_bytes : Int) - ppos)
      else count
    match copy_to_user room priv.result_data.bytes ppos count1 with
    | none => none
    | some (left, out) =>
      if left ≠ 0 then some (-EFAULT, ppos, out)
      else some (to_s64 count1, to_s64 (to_u64 ppos + count1), out)

/-! ## Device binding and module start -/

/-- Conversion of a `resource_size_t` to `int`, as in `(int)pci_resource_len(pdev, i)`. -/
def to_s32 (x : Nat) : Int :=
  if x % 4294967296 < 2147483648 then ((x % 4294967296 : Nat) : Int)
  else ((x % 4294967296 : Nat) : Int) - 4294967296

/-- One pass of the BAR loop of `pci_probe`: a memory BAR is mapped and gets its
resource length as `int`, any other BAR gets `addr = NULL`, `len = -1`. -/
def pci_probe_bar (mem_bars : Nat) (resource_len ioremap : Nat → Nat) (i : Nat) : bar_t :=
  if mem_bars.testBit i then { addr := ioremap i, len := to_s32 (resource_len i) }
  else { addr := 0, len := -1 }

/-- The session `pci_probe` creates when every kernel call in it succeeds: `kzalloc`
zeroes the structure, then the loop fills the six BAR entries.  On any failure
`pci_probe` frees the structure and there is no session. -/
def pci_probe (mem_bars : Nat) (resource_len ioremap : Nat → Nat) : pcielat_priv :=
  { bar := (List.range 6).map (pci_probe_bar mem_bars resource_len ioremap)
    result_data := ptr.null
    cur_resdata_size_in_bytes := 0
    options := { loops := 0, target_bar := 0, bar_offset := 0 } }

/-- The function `check_tsc_invariant`; `cpuid leaf` is the value `EDX` holds after
`cpuid` with `EAX = leaf`, stored into a `uint32_t`. -/
def check_tsc_invariant (cpuid : Nat → Nat) : Int :=
  if (cpuid 0x80000001 % 4294967296) ||| 0x8000000 ≠ 0 then
    if (cpuid 0x80000007 % 4294967296) ||| 0x100 ≠ 0 then 1
    else 0
  else 0

/-- The module-wide state `pci_init` works on: the global `tsc_overhead`, the hardware
activity, whether `pcielat_class` exists and whether the PCI driver is registered. -/
structure module_state where
  tsc_overhead : Nat
  hw : cpu
  class_created : Bool
  driver_registered : Bool
deriving DecidableEq, Repr

/-- The function `pci_init` up to the registration of the driver.  `class_create_err`
is the error `class_create` returns, if any, and `register_err` the result of
`pci_register_driver`.  The loop over the `ids` parameter that follows only adds dynamic
ids and always ends in `return 0`. -/
def pci_init (cpuid : Nat → Nat) (tsc : Nat → Nat × Nat) (class_create_err : Option Int)
    (register_err : Int) (m : module_state) : Int × module_state :=
  if check_tsc_invariant cpuid = 0 then (-EPERM, m)
  else
    let r := get_tsc_overhead tsc m.hw
    let m1 : module_state := { m with tsc_overhead := r.1, hw := r.2 }
    match class_create_err with
    | some e => (e, m1)
    | none =>
      if register_err ≠ 0 then (register_err, m1)
      else (0, { m1 with class_created := true, driver_registered := true })

/-- The module state before `pci_init`: statics are zero, nothing is registered. -/
def module_start : module_state :=
  { tsc_overhead := 0, hw := { reads := 0, mmio := [], stores := [] },
    class_created := false, driver_registered := false }

/-! ## Reachable sessions -/

/-- The session states reachable from a fresh session by the control-plane operations,
with every allocation free to fail.  `dev_read` does not write to the session, so export
reads add no state. -/
inductive Reachable : pcielat_priv → Prop
  | probe (mem_bars : Nat) (resource_len ioremap : Nat → Nat) :
      Reachable (pci_probe mem_bars resource_len ioremap)
  | loops_store (heap : Option (Nat → result_data_t)) (s : pcielat_priv) (n count : Nat) :
      Reachable s → Reachable (pcielat_loops_store heap s n count).2
  | target_bar_store (s : pcielat_priv) (bar count : Nat) :
      Reachable s → Reachable (pcielat_target_bar_store s bar count).2
  | bar_offset_store (s : pcielat_priv) (offset count : Nat) :
      Reachable s → Reachable (pcielat_bar_offset_store s offset count).2
  | measure_store (tsc : Nat → Nat × Nat) (s s' : pcielat_priv) (c c' : cpu)
      (count : Nat) (r : Int) :
      Reachable s → pcielat_measure_store tsc s c count = some (r, s', c') → Reachable s'

/-! ## Auxiliary definitions for the proofs -/

/-- The sample the body of `do_benchmark` stores when its opening timestamp is counter
read `r` and its closing timestamp counter read `r + 1`. -/
def sample_at (tsc : Nat → Nat × Nat) (r : Nat) : result_data_t :=
  { tsc_start :=
      ((((tsc r).1 % 4294967296) <<< 32) ||| ((tsc r).2 % 4294967296)) % 18446744073709551616
    tsc_diff :=
      (((((tsc (r + 1)).1 % 4294967296) <<< 32) ||| ((tsc (r + 1)).2 % 4294967296))
          % 18446744073709551616 + 18446744073709551616
        - ((((tsc r).1 % 4294967296) <<< 32) ||| ((tsc r).2 % 4294967296))
          % 18446744073709551616) % 18446744073709551616 }

/-- What holds of every reachable session: the reported byte length is `loops * 16`,
`loops` is at most `LOOPS_UPPER_LIMIT`, the buffer pointer is never an error pointer and
a live buffer holds exactly `loops` samples. -/
def session_inv (s : pcielat_priv) : Prop :=
  s.cur_resdata_size_in_bytes = s.options.loops * 16 ∧
  s.options.loops ≤ 10000000 ∧
  IS_ERR s.result_data = false ∧
  (∀ d, s.result_data = ptr.mem d → d.length = s.options.loops)

/-! ## Concrete inputs -/

/-- A counter that advances by 10 between reads, its upper half fixed at 1. -/
def tsc_demo : Nat → Nat × Nat := fun k => (1, 10 * k)

/-- A counter that advances by 10 between reads and whose low half wraps between read 4
and read 5, the opening and the closing read of the first calibration pass. -/
def tsc_wrap : Nat → Nat × Nat :=
  fun k => ((4294967251 + 10 * k) / 4294967296, (4294967251 + 10 * k) % 4294967296)

/-- A device with one 4096-byte memory BAR at index 0, mapped at address 65536. -/
def priv_fresh : pcielat_priv := pci_probe 1 (fun _ => 4096) (fun _ => 65536)

/-- The idle hardware. -/
def cpu0 : cpu := { reads := 0, mmio := [], stores := [] }

/-- Uninitialised memory that happens to hold the pattern 7. -/
def heap7 : Option (Nat → result_data_t) := some (fun _ => { tsc_start := 7, tsc_diff := 7 })

/-- The session after `loops` was set to 3 on the demo device. -/
def priv3 : pcielat_priv := (pcielat_loops_store heap7 priv_fresh 3 2).2

/-- A device whose BAR 0 is a memory BAR with an empty resource, so `bar[0].len = 0`. -/
def priv_short_fresh : pcielat_priv := pci_probe 1 (fun _ => 0) (fun _ => 65536)

/-- The session on that device after `loops` was set to 1. -/
def priv_short : pcielat_priv := (pcielat_loops_store heap7 priv_short_fresh 1 2).2

/-- The demo session after `loops` was set to 1 while `vmalloc` failed. -/
def priv_failed : pcielat_priv := (pcielat_loops_store none priv_fresh 1 2).2

/-- The demo session with the unmapped BAR 2 selected. -/
def priv_bar2 : pcielat_priv := (pcielat_target_bar_store priv3 2 2).2

/-! ## Theorems -/

/-- C2: when the selected BAR is unmapped (`len < 0`), `pcielat_measure_store` returns
the negative code `-EINVAL`, and the session (options, result buffer, reported size) and
the hardware record (counter reads, MMIO reads, buffer stores) are what they were. -/
theorem measure_store_unmapped (tsc : Nat → Nat × Nat) (priv : pcielat_priv) (c : cpu)
    (count : Nat) (b : bar_t)
    (hb : priv.bar[priv.options.target_bar]? = some b) (hlen : b.len < 0) :
    pcielat_measure_store tsc priv c count = some (-EINVAL, priv, c) ∧ -EINVAL < 0 := by
  refine ⟨?_, by decide⟩
  unfold pcielat_measure_store
  by_cases h0 : priv.options.loops = 0
  · simp [h0]
  · simp [h0, hb, hlen]

theorem measure_store_unmapped_witness :
    priv_bar2.bar[priv_bar2.options.target_bar]? = some { len := -1, addr := 0 } ∧
    (pcielat_measure_store tsc_demo priv_bar2 cpu0 2 = some (-EINVAL, priv_bar2, cpu0)
      ∧ -EINVAL < 0) :=
  ⟨by decide,
   measure_store_unmapped tsc_demo priv_bar2 cpu0 2 { len := -1, addr := 0 }
     (by decide) (by decide)⟩

theorem loops_store_out_of_range_aux (heap : Option (Nat → result_data_t))
    (priv : pcielat_priv) (n count : Nat) (hn : n = 0 ∨ n > 10000000) :
    pcielat_loops_store heap priv n count = (-EINVAL, priv) := by
  unfold pcielat_loops_store LOOPS_UPPER_LIMIT
  simp [hn]

/-- C5: for a loop count outside `1..LOOPS_UPPER_LIMIT` (0, or above 10,000,000),
`pcielat_loops_store` returns `-EINVAL` and the whole session (options, result buffer,
reported byte length) is what it was. -/
theorem loops_store_out_of_range (heap : Option (Nat → result_data_t)) (priv : pcielat_priv)
    (n count : Nat) (hn : n = 0 ∨ n > 10000000) :
    pcielat_loops_store heap priv n count = (-EINVAL, priv) := by
  unfold pcielat_loops_store LOOPS_UPPER_LIMIT
  simp [hn]

theorem loops_store_out_of_range_witness :
    (10000001 = 0 ∨ 10000001 > 10000000) ∧
    pcielat_loops_store heap7 priv3 10000001 9 = (-EINVAL, priv3) :=
  ⟨by decide, loops_store_out_of_range heap7 priv3 10000001 9 (by decide)⟩

/-- C6: the selector setters ignore an invalid value and keep the last good one.  A
misaligned offset (`o % 4 ≠ 0`) and a BAR index above 5 return `count` and leave the
session as it was; an aligned offset, resp. an index up to 5, returns `count` and changes
that one option, to the value written. -/
theorem selector_stores (priv : pcielat_priv) (o r count : Nat) :
    (o % 4 ≠ 0 → pcielat_bar_offset_store priv o count = ((count : Int), priv)) ∧
    (5 < r → pcielat_target_bar_store priv r count = ((count : Int), priv)) ∧
    (o % 4 = 0 → pcielat_bar_offset_store priv o count =
      ((count : Int), { priv with options := { priv.options with bar_offset := o } })) ∧
    (r ≤ 5 → pcielat_target_bar_store priv r count =
      ((count : Int), { priv with options := { priv.options with target_bar := r } })) := by
  refine ⟨?_, ?_, ?_, ?_⟩
  · intro h
    simp [pcielat_bar_offset_store, h]
  · intro h
    simp [pcielat_target_bar_store, Nat.not_le.mpr h]
  · intro h
    simp [pcielat_bar_offset_store, h]
  · intro h
    have h256 : r % 256 = r := Nat.mod_eq_of_lt (by omega)
    simp [pcielat_target_bar_store, h, h256]

theorem selector_stores_witness :
    pcielat_bar_offset_store priv3 4093 5 = (5, priv3) ∧
    pcielat_target_bar_store priv3 6 2 = (2, priv3) ∧
    pcielat_bar_offset_store priv3 4092 5 =
      (5, { priv3 with options := { priv3.options with bar_offset := 4092 } }) ∧
    pcielat_target_bar_store priv3 5 2 =
      (2, { priv3 with options := { priv3.options with target_bar := 5 } }) :=
  ⟨(selector_stores priv3 4093 6 5).1 (by decide),
   (selector_stores priv3 4093 6 2).2.1 (by decide),
   (selector_stores priv3 4092 5 5).2.2.1 (by decide),
   (selector_stores priv3 4092 5 2).2.2.2 (by decide)⟩

/-- C1, at the failing input: `bar[0].len = 0`, `loops = 1`, `bar_offset = 0`.  The
offset is out of range (`0 + 4 > 0`), yet `target_bar_len - 4 = -4` converts to
`4294967292`, the comparison `0 > 4294967292` is false, and `pcielat_measure_store` runs
the benchmark: it returns `count`, reads the device once and stores one sample. -/
theorem measure_store_short_bar_runs :
    priv_short.options.loops = 1 ∧
    priv_short.bar[priv_short.options.target_bar]? = some { len := 0, addr := 65536 } ∧
    ((priv_short.options.bar_offset : Int) + 4 > 0) ∧
    pcielat_measure_store tsc_demo priv_short cpu0 2 =
      some (2,
        { priv_short with
          result_data := ptr.mem [{ tsc_start := 4294967336, tsc_diff := 10 }] },
        { reads := 6, mmio := [65536], stores := [0] }) := by
  decide

/-- C8, at the failing input: `EDX = 0` for both CPUID leaves, so neither bit 27 nor
bit 8 is set.  `check_tsc_invariant` tests `edx | mask`, which is never 0, and returns 1;
`pci_init` goes on to register the driver and returns 0. -/
theorem check_tsc_invariant_zero_edx :
    check_tsc_invariant (fun _ => 0) = 1 ∧
    (pci_init (fun _ => 0) tsc_demo none 0 module_start).1 = 0 ∧
    (pci_init (fun _ => 0) tsc_demo none 0 module_start).2.driver_registered = true := by
  have h : check_tsc_invariant (fun _ => 0) = 1 := by decide
  refine ⟨h, ?_, ?_⟩ <;> simp [pci_init, h]

/-- C9, at the failing input: on a fresh session `loops` is set to 1 while `vmalloc`
fails.  `vmalloc` returns NULL, `IS_ERR(NULL)` is false, and the store goes on: the
reachable session reports 16 bytes to the export path behind a NULL buffer of capacity
0. -/
theorem loops_store_failed_alloc :
    Reachable priv_failed ∧
    pcielat_loops_store none priv_fresh 1 2 = (2, priv_failed) ∧
    priv_failed.result_data = ptr.null ∧
    priv_failed.cur_resdata_size_in_bytes = 16 ∧
    priv_failed.result_data.capacity = 0 := by
  refine ⟨?_, by decide, by decide, by decide, by decide⟩
  exact Reachable.loops_store none priv_fresh 1 2 (Reachable.probe 1 _ _)

/-! ### The measurement loop -/

theorem warmup_eq (tsc : Nat → Nat × Nat) (c : cpu) :
    warmup tsc c = { c with reads := c.reads + 4 } := rfl

theorem do_benchmark_body_eq (tsc : Nat → Nat × Nat) (a o i : Nat)
    (st : cpu × List result_data_t) :
    do_benchmark_body tsc a o i st =
      if i < st.2.length then
        some ({ reads := st.1.reads + 2, mmio := st.1.mmio ++ [a + o],
                stores := st.1.stores ++ [i] },
              st.2.set i (sample_at tsc st.1.reads))
      else none := rfl

theorem do_benchmark_loop_spec (tsc : Nat → Nat × Nat) (a o : Nat) :
    ∀ (k i : Nat) (st : cpu × List result_data_t), i + k ≤ st.2.length →
      ∃ c' d', do_benchmark_loop tsc a o k i st = some (c', d') ∧
        c'.reads = st.1.reads + 2 * k ∧
        c'.mmio = st.1.mmio ++ List.replicate k (a + o) ∧
        c'.stores = st.1.stores ++ List.range' i k ∧
        d'.length = st.2.length ∧
        (∀ j, j < k → d'[i + j]? = some (sample_at tsc (st.1.reads + 2 * j))) ∧
        (∀ j, j < i ∨ i + k ≤ j → d'[j]? = st.2[j]?) := by
  intro k
  induction k with
  | zero =>
    intro i st _
    exact ⟨st.1, st.2, rfl, by simp, by simp, by simp, rfl, by intro j hj; omega,
      fun _ _ => rfl⟩
  | succ k ih =>
    intro i st h
    have hi : i < st.2.length := by omega
    obtain ⟨c', d', hrun, hr, hm, hs, hl, hnew, hold⟩ :=
      ih (i + 1)
        ({ reads := st.1.reads + 2, mmio := st.1.mmio ++ [a + o],
           stores := st.1.stores ++ [i] },
         st.2.set i (sample_at tsc st.1.reads))
        (by simp only [List.length_set]; omega)
    dsimp only at hr hm hs hl hnew hold
    rw [List.length_set] at hl
    refine ⟨c', d', ?_, ?_, ?_, ?_, ?_, ?_, ?_⟩
    · simp only [do_benchmark_loop, do_benchmark_body_eq, if_pos hi, Option.bind]
      exact hrun
    · rw [hr]; omega
    · rw [hm]; simp [List.replicate_succ]
    · rw [hs]; simp [List.range'_succ]
    · exact hl
    · intro j hj
      cases j with
      | zero =>
        rw [Nat.add_zero, hold i (Or.inl (Nat.lt_succ_self i))]
        simp [List.getElem?_set, hi]
      | succ j =>
        have := hnew j (by omega)
        rw [show i + (j + 1) = i + 1 + j by omega,
          show st.1.reads + 2 * (j + 1) = st.1.reads + 2 + 2 * j by omega]
        exact this
    · intro j hj
      rw [hold j (by omega)]
      rw [List.getElem?_set_ne (by omega)]

theorem do_benchmark_loop_length (tsc : Nat → Nat × Nat) (a o : Nat) :
    ∀ (k i : Nat) (st st' : cpu × List result_data_t),
      do_benchmark_loop tsc a o k i st = some st' → st'.2.length = st.2.length := by
  intro k
  induction k with
  | zero =>
    intro i st st' h
    simp only [do_benchmark_loop, Option.some.injEq] at h
    rw [← h]
  | succ k ih =>
    intro i st st' h
    simp only [do_benchmark_loop, do_benchmark_body_eq] at h
    by_cases hi : i < st.2.length
    · simp only [if_pos hi, Option.bind] at h
      have := ih _ _ _ h
      simpa using this
    · simp [if_neg hi] at h

theorem combine_lt (h l : Nat) :
    (((h % 4294967296) <<< 32) ||| (l % 4294967296)) < 18446744073709551616 := by
  have h1 : (h % 4294967296) <<< 32 < 2 ^ 64 := by
    rw [Nat.shiftLeft_eq]
    have : h % 4294967296 < 4294967296 := Nat.mod_lt _ (by decide)
    norm_num
    omega
  have h2 : l % 4294967296 < 2 ^ 64 := by
    have : l % 4294967296 < 4294967296 := Nat.mod_lt _ (by decide)
    norm_num
    omega
  have := Nat.or_lt_two_pow h1 h2
  norm_num at this
  exact this

theorem sample_at_eq (tsc : Nat → Nat × Nat) (r : Nat) :
    sample_at tsc r =
      { tsc_start := (((tsc r).1 % 4294967296) <<< 32) ||| ((tsc r).2 % 4294967296)
        tsc_diff :=
          Int.toNat
            ((Int.ofNat ((((tsc (r + 1)).1 % 4294967296) <<< 32)
                  ||| ((tsc (r + 1)).2 % 4294967296))
              - Int.ofNat ((((tsc r).1 % 4294967296) <<< 32) ||| ((tsc r).2 % 4294967296)))
              % 18446744073709551616) } := by
  have hs := combine_lt (tsc r).1 (tsc r).2
  have he := combine_lt (tsc (r + 1)).1 (tsc (r + 1)).2
  unfold sample_at
  generalize ((((tsc r).1 % 4294967296) <<< 32) ||| ((tsc r).2 % 4294967296)) = S at hs ⊢
  generalize
    ((((tsc (r + 1)).1 % 4294967296) <<< 32) ||| ((tsc (r + 1)).2 % 4294967296)) = E at he ⊢
  congr 1
  · exact Nat.mod_eq_of_lt hs
  · simp only [Int.ofNat_eq_coe]
    omega

/-- C3: a run the checks of `pcielat_measure_store` accept (`loops = n ≠ 0`, selected
BAR mapped, offset check passed) on a buffer with room for `n` samples returns `count`
and changes nothing of the session but the buffer content.  With `(high_before,
low_before)` the registers of the opening and `(high_after, low_after)` those of the
closing counter read of pass `i` (reads `4 + 2 * i` and `5 + 2 * i` counted from the
start of the run, the warm-up taking four), sample `i < n` is
`start = (high_before << 32) | low_before` and
`duration = (((high_after << 32) | low_after) - start) mod 2^64`; entries at index
`n` and above are untouched, the stores hit the indices `0, .., n - 1` once each in
order, and the device is read `n` times at `addr + bar_offset`. -/
theorem measure_store_samples (tsc : Nat → Nat × Nat) (priv : pcielat_priv) (c : cpu)
    (count : Nat) (b : bar_t) (d : List result_data_t)
    (hloops : priv.options.loops ≠ 0)
    (hb : priv.bar[priv.options.target_bar]? = some b)
    (hlen : 0 ≤ b.len)
    (hoff : ¬ priv.options.bar_offset > to_u32 (b.len - 4))
    (hd : priv.result_data = ptr.mem d)
    (hcap : priv.options.loops ≤ d.length) :
    ∃ d' c',
      pcielat_measure_store tsc priv c count =
        some ((count : Int), { priv with result_data := ptr.mem d' }, c') ∧
      d'.length = d.length ∧
      (∀ i high_before low_before high_after low_after : Nat, i < priv.options.loops →
        high_before = (tsc (c.reads + 4 + 2 * i)).1 % 4294967296 →
        low_before = (tsc (c.reads + 4 + 2 * i)).2 % 4294967296 →
        high_after = (tsc (c.reads + 5 + 2 * i)).1 % 4294967296 →
        low_after = (tsc (c.reads + 5 + 2 * i)).2 % 4294967296 →
        d'[i]? = some
          { tsc_start := (high_before <<< 32) ||| low_before
            tsc_diff :=
              Int.toNat ((Int.ofNat ((high_after <<< 32) ||| low_after)
                - Int.ofNat ((high_before <<< 32) ||| low_before))
                % 18446744073709551616) }) ∧
      (∀ i, priv.options.loops ≤ i → d'[i]? = d[i]?) ∧
      c'.stores = c.stores ++ List.range priv.options.loops ∧
      c'.mmio = c.mmio ++ List.replicate priv.options.loops (b.addr + priv.options.bar_offset) ∧
      c'.reads = c.reads + 4 + 2 * priv.options.loops := by
  obtain ⟨c', d', hrun, hr, hm, hs, hl, hnew, hold⟩ :=
    do_benchmark_loop_spec tsc b.addr priv.options.bar_offset priv.options.loops 0
      ({ c with reads := c.reads + 4 }, d) (by simpa using hcap)
  dsimp only at hr hm hs hl hnew hold
  refine ⟨d', c', ?_, hl, ?_, ?_, ?_, hm, ?_⟩
  · unfold pcielat_measure_store
    simp only [if_neg hloops, hb, if_neg (not_lt.mpr hlen), if_neg hoff, hd, do_benchmark,
      warmup_eq, hrun, Option.map]
  · intro i hb' lb' ha' la' hi e1 e2 e3 e4
    have h := hnew i hi
    rw [Nat.zero_add, sample_at_eq] at h
    rw [h, e1, e2, e3, e4]
    rw [show c.reads + 4 + 2 * i + 1 = c.reads + 5 + 2 * i by omega]
  · intro i hi
    exact hold i (Or.inr (by omega))
  · rw [hs, List.range_eq_range']
  · rw [hr]

theorem measure_store_samples_witness :
    ∃ d' c',
      pcielat_measure_store tsc_demo priv3 cpu0 2 =
        some (((2 : Nat) : Int), { priv3 with result_data := ptr.mem d' }, c') ∧
      d'.length = [(⟨7, 7⟩ : result_data_t), ⟨7, 7⟩, ⟨7, 7⟩].length ∧
      (∀ i high_before low_before high_after low_after : Nat, i < priv3.options.loops →
        high_before = (tsc_demo (cpu0.reads + 4 + 2 * i)).1 % 4294967296 →
        low_before = (tsc_demo (cpu0.reads + 4 + 2 * i)).2 % 4294967296 →
        high_after = (tsc_demo (cpu0.reads + 5 + 2 * i)).1 % 4294967296 →
        low_after = (tsc_demo (cpu0.reads + 5 + 2 * i)).2 % 4294967296 →
        d'[i]? = some
          { tsc_start := (high_before <<< 32) ||| low_before
            tsc_diff :=
              Int.toNat ((Int.ofNat ((high_after <<< 32) ||| low_after)
                - Int.ofNat ((high_before <<< 32) ||| low_before))
                % 18446744073709551616) }) ∧
      (∀ i, priv3.options.loops ≤ i →
        d'[i]? = [(⟨7, 7⟩ : result_data_t), ⟨7, 7⟩, ⟨7, 7⟩][i]?) ∧
      c'.stores = cpu0.stores ++ List.range priv3.options.loops ∧
      c'.mmio = cpu0.mmio ++
        List.replicate priv3.options.loops
          (({ len := 4096, addr := 65536 } : bar_t).addr + priv3.options.bar_offset) ∧
      c'.reads = cpu0.reads + 4 + 2 * priv3.options.loops :=
  measure_store_samples tsc_demo priv3 cpu0 2 { len := 4096, addr := 65536 }
    [⟨7, 7⟩, ⟨7, 7⟩, ⟨7, 7⟩] (by decide) (by decide) (by decide) (by decide) (by decide)
    (by decide)

/-! ### The session invariant -/

theorem IS_ERR_vmalloc (heap : Option (Nat → result_data_t)) (size : Nat) :
    IS_ERR (vmalloc heap size) = false := by
  cases heap <;> rfl

theorem loops_store_accept (heap : Option (Nat → result_data_t)) (s : pcielat_priv)
    (n count : Nat) (h1 : 1 ≤ n) (h2 : n ≤ 10000000) (hne : n ≠ s.options.loops) :
    pcielat_loops_store heap s n count =
      ((count : Int),
       { s with
         options := { s.options with loops := n }
         result_data := vmalloc heap (n * 16)
         cur_resdata_size_in_bytes := n * 16 }) := by
  have hr : ¬ (n = 0 ∨ n > LOOPS_UPPER_LIMIT) := by
    unfold LOOPS_UPPER_LIMIT; omega
  have e64 : n * 16 % 18446744073709551616 = n * 16 := Nat.mod_eq_of_lt (by omega)
  have e32 : n * 16 % 4294967296 = n * 16 := Nat.mod_eq_of_lt (by omega)
  unfold pcielat_loops_store
  rw [if_neg hr, if_pos hne]
  simp only [sizeof_result_data_t, e64, e32, IS_ERR_vmalloc]
  by_cases hnull : s.result_data = ptr.null <;> simp [hnull]

theorem loops_store_same (heap : Option (Nat → result_data_t)) (s : pcielat_priv)
    (n count : Nat) (h1 : 1 ≤ n) (h2 : n ≤ 10000000) (he : n = s.options.loops) :
    pcielat_loops_store heap s n count = ((count : Int), s) := by
  have hr : ¬ (n = 0 ∨ n > LOOPS_UPPER_LIMIT) := by
    unfold LOOPS_UPPER_LIMIT; omega
  unfold pcielat_loops_store
  rw [if_neg hr, if_neg (not_not.mpr he)]

theorem vmalloc_cells (heap : Option (Nat → result_data_t)) (n : Nat)
    (d : List result_data_t) (h : vmalloc heap (n * 16) = ptr.mem d) : d.length = n := by
  cases heap with
  | none => simp [vmalloc] at h
  | some g =>
    simp only [vmalloc, sizeof_result_data_t, ptr.mem.injEq] at h
    rw [← h]
    simp

theorem loops_store_inv (heap : Option (Nat → result_data_t)) (s : pcielat_priv)
    (n count : Nat) (hs : session_inv s) :
    session_inv (pcielat_loops_store heap s n count).2 := by
  by_cases hr : 1 ≤ n ∧ n ≤ 10000000
  · by_cases he : n = s.options.loops
    · rw [loops_store_same heap s n count hr.1 hr.2 he]
      exact hs
    · rw [loops_store_accept heap s n count hr.1 hr.2 he]
      exact ⟨rfl, hr.2, IS_ERR_vmalloc heap _, fun d hd => vmalloc_cells heap n d hd⟩
  · rw [loops_store_out_of_range_aux heap s n count (by omega)]
    exact hs

theorem do_benchmark_inv (tsc : Nat → Nat × Nat) (a o n : Nat) (p p' : ptr) (c c' : cpu)
    (h : do_benchmark tsc a o n p c = some (c', p')) :
    IS_ERR p' = IS_ERR p ∧ p'.cells.length = p.cells.length ∧ (p = ptr.null ↔ p' = ptr.null) := by
  cases p with
  | mem d =>
    simp only [do_benchmark, Option.map_eq_some'] at h
    obtain ⟨st, hst, heq⟩ := h
    have hl := do_benchmark_loop_length tsc a o n 0 _ st hst
    simp only [Prod.mk.injEq] at heq
    rw [← heq.2]
    exact ⟨rfl, hl, by simp⟩
  | null =>
    simp only [do_benchmark, Option.map_eq_some'] at h
    obtain ⟨st, _, heq⟩ := h
    simp only [Prod.mk.injEq] at heq
    rw [← heq.2]
    exact ⟨rfl, rfl, by simp⟩
  | err e =>
    simp only [do_benchmark, Option.map_eq_some'] at h
    obtain ⟨st, _, heq⟩ := h
    simp only [Prod.mk.injEq] at heq
    rw [← heq.2]
    exact ⟨rfl, rfl, by simp⟩

theorem measure_store_frame (tsc : Nat → Nat × Nat) (s s' : pcielat_priv) (c c' : cpu)
    (count : Nat) (r : Int) (h : pcielat_measure_store tsc s c count = some (r, s', c')) :
    s'.bar = s.bar ∧ s'.options = s.options ∧
    s'.cur_resdata_size_in_bytes = s.cur_resdata_size_in_bytes ∧
    IS_ERR s'.result_data = IS_ERR s.result_data ∧
    s'.result_data.cells.length = s.result_data.cells.length ∧
    (s.result_data = ptr.null ↔ s'.result_data = ptr.null) := by
  unfold pcielat_measure_store at h
  by_cases h0 : s.options.loops = 0
  · simp only [if_pos h0, Option.some.injEq, Prod.mk.injEq] at h
    rw [← h.2.1]
    exact ⟨rfl, rfl, rfl, rfl, rfl, Iff.rfl⟩
  · rw [if_neg h0] at h
    cases hb : s.bar[s.options.target_bar]? with
    | none => simp [hb] at h
    | some b =>
      simp only [hb] at h
      by_cases hlen : b.len < 0
      · simp only [if_pos hlen, Option.some.injEq, Prod.mk.injEq] at h
        rw [← h.2.1]
        exact ⟨rfl, rfl, rfl, rfl, rfl, Iff.rfl⟩
      · rw [if_neg hlen] at h
        by_cases hoff : s.options.bar_offset > to_u32 (b.len - 4)
        · simp only [if_pos hoff, Option.some.injEq, Prod.mk.injEq] at h
          rw [← h.2.1]
          exact ⟨rfl, rfl, rfl, rfl, rfl, Iff.rfl⟩
        · rw [if_neg hoff] at h
          cases hrun : do_benchmark tsc b.addr s.options.bar_offset s.options.loops
              s.result_data c with
          | none => simp [hrun] at h
          | some q =>
            obtain ⟨c1, p1⟩ := q
            simp only [hrun, Option.some.injEq, Prod.mk.injEq] at h
            have hi := do_benchmark_inv tsc _ _ _ _ _ _ _ hrun
            rw [← h.2.1]
            exact ⟨rfl, rfl, rfl, hi.1, hi.2.1, hi.2.2⟩

theorem reachable_inv (s : pcielat_priv) (h : Reachable s) : session_inv s := by
  induction h with
  | probe mem_bars resource_len ioremap =>
    exact ⟨rfl, by simp [pci_probe], rfl, by intro d hd; simp [pci_probe] at hd⟩
  | loops_store heap s n count _ ih => exact loops_store_inv heap s n count ih
  | target_bar_store s bar count _ ih =>
    unfold pcielat_target_bar_store
    by_cases hb : bar ≤ 5
    · rw [if_pos hb]; exact ih
    · rw [if_neg hb]; exact ih
  | bar_offset_store s offset count _ ih =>
    unfold pcielat_bar_offset_store
    by_cases hb : offset % 4 = 0
    · rw [if_pos hb]; exact ih
    · rw [if_neg hb]; exact ih
  | measure_store tsc s s' c c' count r _ hrun ih =>
    obtain ⟨_, ho, hsz, herr, hlen, hnull⟩ := measure_store_frame tsc s s' c c' count r hrun
    obtain ⟨i1, i2, i3, i4⟩ := ih
    refine ⟨by rw [hsz, ho]; exact i1, by rw [ho]; exact i2, by rw [herr]; exact i3, ?_⟩
    intro d hd
    rw [ho]
    cases hp : s.result_data with
    | mem d0 =>
      have := i4 d0 hp
      rw [hd, hp] at hlen
      simp only [ptr.cells] at hlen
      omega
    | null =>
      have hn := hnull.mp hp
      rw [hd] at hn
      cases hn
    | err e =>
      rw [hp] at i3
      simp [IS_ERR] at i3

/-- C4: on every reachable session (the fresh one included, and also when `n` is the
current loop count) and for every `n` with `1 ≤ n ≤ 10,000,000`, `pcielat_loops_store`
returns `count`; afterwards `options.loops = n`, the byte length reported to the export
path is `n * 16`, which is below `2^32`, a live result buffer holds exactly `n` samples,
and when the call allocates (`n` differs from the current count) and `vmalloc` delivers
memory, the buffer is that memory, of exactly `n` samples. -/
theorem loops_store_in_range (heap : Option (Nat → result_data_t)) (s : pcielat_priv)
    (n count : Nat) (hs : Reachable s) (h1 : 1 ≤ n) (h2 : n ≤ 10000000) :
    (pcielat_loops_store heap s n count).1 = (count : Int) ∧
    (pcielat_loops_store heap s n count).2.options.loops = n ∧
    (pcielat_loops_store heap s n count).2.cur_resdata_size_in_bytes = n * 16 ∧
    n * 16 < 4294967296 ∧
    (∀ d, (pcielat_loops_store heap s n count).2.result_data = ptr.mem d → d.length = n) ∧
    (n ≠ s.options.loops → heap.isSome = true →
      ∃ d, (pcielat_loops_store heap s n count).2.result_data = ptr.mem d ∧ d.length = n) := by
  have hinv := reachable_inv s hs
  by_cases he : n = s.options.loops
  · rw [loops_store_same heap s n count h1 h2 he]
    obtain ⟨i1, _, _, i4⟩ := hinv
    refine ⟨rfl, he.symm, by rw [i1, he], by omega, ?_, fun h => absurd he h⟩
    intro d hd
    rw [he]
    exact i4 d hd
  · rw [loops_store_accept heap s n count h1 h2 he]
    refine ⟨rfl, rfl, rfl, by omega, fun d hd => vmalloc_cells heap n d hd, ?_⟩
    intro _ hsome
    cases heap with
    | none => simp at hsome
    | some g =>
      refine ⟨(List.range (n * 16 / 16)).map g, rfl, ?_⟩
      simp

theorem loops_store_in_range_witness :
    (pcielat_loops_store heap7 priv_fresh 3 2).1 = ((2 : Nat) : Int) ∧
    (pcielat_loops_store heap7 priv_fresh 3 2).2.options.loops = 3 ∧
    (pcielat_loops_store heap7 priv_fresh 3 2).2.cur_resdata_size_in_bytes = 3 * 16 ∧
    3 * 16 < 4294967296 ∧
    (∀ d, (pcielat_loops_store heap7 priv_fresh 3 2).2.result_data = ptr.mem d →
      d.length = 3) ∧
    (3 ≠ priv_fresh.options.loops → heap7.isSome = true →
      ∃ d, (pcielat_loops_store heap7 priv_fresh 3 2).2.result_data = ptr.mem d ∧
        d.length = 3) :=
  loops_store_in_range heap7 priv_fresh 3 2 (Reachable.probe 1 _ _) (by decide) (by decide)

/-! ### The export read -/

theorem to_u64_natCast (n : Nat) (h : n < 18446744073709551616) : to_u64 (n : Int) = n := by
  unfold to_u64
  omega

theorem to_s64_small (n : Nat) (h : n < 9223372036854775808) : to_s64 n = (n : Int) := by
  unfold to_s64
  have e : n % 18446744073709551616 = n := Nat.mod_eq_of_lt (by omega)
  rw [e, if_pos h]

/-- C7, as stated, fails when the user buffer is not writable for the bytes to deliver.
On the 48-byte buffer of the demo session, at position 0 with count 20 (so
`0 < 48` and `min 20 (48 - 0) = 20`) and a user buffer with only 10 writable bytes,
`dev_read` returns `-EFAULT` instead of 20 and leaves the position at 0. -/
theorem dev_read_user_fault :
    priv3.cur_resdata_size_in_bytes = 48 ∧
    priv3.result_data.bytes.length = 48 ∧
    dev_read priv3 10 20 0 = some (-EFAULT, 0, [7, 0, 0, 0, 0, 0, 0, 0, 7, 0]) ∧
    dev_read priv3 10 20 0 ≠
      some (((min 20 (48 - 0) : Nat) : Int), ((0 + min 20 (48 - 0) : Nat) : Int),
        (priv3.result_data.bytes.drop 0).take (min 20 (48 - 0))) := by
  decide

/-- C7, amended: with `L` the byte length of the result buffer (an `unsigned int`, the
buffer holding at least `L` bytes), `p` a non-negative file position, `c` a count with
`p + c < 2^64`, `m = min c (L - p)` and `room` the number of writable bytes of the user
buffer: when `p ≥ L`, `dev_read` returns 0, delivers nothing and leaves the position at
`p`; when `p < L` and `m ≤ room`, it returns `m`, moves the position to `p + m` and
delivers exactly the `m` buffer bytes at offsets `p .. p + m - 1`, in order; when `p < L`
and `room < m`, it returns `-EFAULT` and leaves the position at `p`, having delivered
the first `room` of those bytes.  No delivered byte comes from an offset `≥ L`. -/
theorem dev_read_spec (priv : pcielat_priv) (room c p : Nat)
    (hL : priv.cur_resdata_size_in_bytes < 4294967296)
    (hbuf : priv.cur_resdata_size_in_bytes ≤ priv.result_data.bytes.length)
    (hpc : p + c < 18446744073709551616) :
    (priv.cur_resdata_size_in_bytes ≤ p →
      dev_read priv room c (p : Int) = some (0, (p : Int), [])) ∧
    (p < priv.cur_resdata_size_in_bytes →
      min c (priv.cur_resdata_size_in_bytes - p) ≤ room →
      dev_read priv room c (p : Int) =
        some (((min c (priv.cur_resdata_size_in_bytes - p) : Nat) : Int),
              ((p + min c (priv.cur_resdata_size_in_bytes - p) : Nat) : Int),
              (priv.result_data.bytes.drop p).take
                (min c (priv.cur_resdata_size_in_bytes - p)))) ∧
    (p < priv.cur_resdata_size_in_bytes →
      room < min c (priv.cur_resdata_size_in_bytes - p) →
      dev_read priv room c (p : Int) =
        some (-EFAULT, (p : Int), (priv.result_data.bytes.drop p).take room)) ∧
    (p < priv.cur_resdata_size_in_bytes →
      ∀ k, k ≤ min c (priv.cur_resdata_size_in_bytes - p) →
        ((priv.result_data.bytes.drop p).take k).length = k ∧
        (∀ i, i < k →
          ((priv.result_data.bytes.drop p).take k)[i]? = priv.result_data.bytes[p + i]?) ∧
        p + k ≤ priv.cur_resdata_size_in_bytes) := by
  generalize hLdef : priv.cur_resdata_size_in_bytes = L at *
  generalize hBdef : priv.result_data.bytes = B at *
  have hcount : p < L →
      (if (to_u64 (p : Int) + c) % 18446744073709551616 > L then
          to_u64 ((L : Int) - (p : Int))
        else c) = min c (L - p) := by
    intro hlt
    rw [to_u64_natCast p (by omega), Nat.mod_eq_of_lt hpc]
    by_cases hgt : p + c > L
    · rw [if_pos hgt]
      have : ((L : Int) - (p : Int)) = ((L - p : Nat) : Int) := by omega
      rw [this, to_u64_natCast _ (by omega)]
      omega
    · rw [if_neg hgt]
      omega
  refine ⟨?_, ?_, ?_, ?_⟩
  · intro hle
    unfold dev_read
    rw [hLdef, if_pos (by exact_mod_cast hle)]
  · intro hlt hroom
    have hm : min c (L - p) ≤ L - p := Nat.min_le_right _ _
    unfold dev_read
    rw [hLdef, hBdef, if_neg (by omega)]
    simp only [hcount hlt]
    generalize min c (L - p) = m at *
    unfold copy_to_user
    by_cases hm0 : m = 0
    · subst hm0
      simp only [if_true, ne_eq, not_true_eq_false, if_false, Nat.add_zero]
      rw [to_u64_natCast p (by omega), to_s64_small 0 (by omega),
        to_s64_small p (by omega)]
      rfl
    · rw [if_neg hm0, if_neg (by omega)]
      have hmin : min m room = m := Nat.min_eq_left hroom
      simp only [hmin, Nat.sub_self, ne_eq, not_true_eq_false, if_false, Int.toNat_ofNat]
      rw [to_u64_natCast p (by omega), to_s64_small m (by omega),
        to_s64_small (p + m) (by omega)]
  · intro hlt hroom
    have hm : min c (L - p) ≤ L - p := Nat.min_le_right _ _
    unfold dev_read
    rw [hLdef, hBdef, if_neg (by omega)]
    simp only [hcount hlt]
    generalize min c (L - p) = m at *
    unfold copy_to_user
    have hm0 : m ≠ 0 := by omega
    rw [if_neg hm0, if_neg (by omega)]
    have hmin : min m room = room := Nat.min_eq_right (by omega)
    have hleft : m - room ≠ 0 := by omega
    simp only [hmin, ne_eq, hleft, not_false_eq_true, if_true, Int.toNat_ofNat]
  · intro hlt k hk
    have hm : min c (L - p) ≤ L - p := Nat.min_le_right _ _
    refine ⟨?_, ?_, by omega⟩
    · rw [List.length_take, List.length_drop]
      omega
    · intro i hi
      rw [List.getElem?_take_of_lt hi, List.getElem?_drop]

theorem dev_read_spec_witness :
    dev_read priv3 100 20 ((40 : Nat) : Int) =
      some (((8 : Nat) : Int), ((48 : Nat) : Int), [7, 0, 0, 0, 0, 0, 0, 0]) ∧
    dev_read priv3 100 20 ((48 : Nat) : Int) = some (0, ((48 : Nat) : Int), []) ∧
    dev_read priv3 4 20 ((40 : Nat) : Int) = some (-EFAULT, ((40 : Nat) : Int), [7, 0, 0, 0]) :=
  ⟨(dev_read_spec priv3 100 20 40 (by decide) (by decide) (by decide)).2.1
      (by decide) (by decide),
   (dev_read_spec priv3 100 20 48 (by decide) (by decide) (by decide)).1 (by decide),
   (dev_read_spec priv3 4 20 40 (by decide) (by decide) (by decide)).2.2.1
      (by decide) (by decide)⟩

/-! ### The overhead calibration -/

theorem get_tsc_overhead_body_eq (tsc : Nat → Nat × Nat) (st : cpu × Nat) :
    get_tsc_overhead_body tsc st =
      ({ reads := st.1.reads + 2, mmio := st.1.mmio, stores := st.1.stores },
       (st.2 + ((tsc (st.1.reads + 1)).2 % 4294967296 + 4294967296
                  - (tsc st.1.reads).2 % 4294967296) % 4294967296)
         % 18446744073709551616) := rfl

theorem low_half_diff (tsc : Nat → Nat × Nat) (r : Nat)
    (h1 : tsc64 tsc r ≤ tsc64 tsc (r + 1))
    (h2 : tsc64 tsc (r + 1) - tsc64 tsc r < 4294967296) :
    ((tsc (r + 1)).2 % 4294967296 + 4294967296 - (tsc r).2 % 4294967296) % 4294967296 =
      tsc64 tsc (r + 1) - tsc64 tsc r := by
  unfold tsc64 at *
  omega

theorem get_tsc_overhead_loop_spec (tsc : Nat → Nat × Nat) :
    ∀ (k : Nat) (st : cpu × Nat),
      (∀ i, i < k →
        tsc64 tsc (st.1.reads + 2 * i) ≤ tsc64 tsc (st.1.reads + 2 * i + 1) ∧
        tsc64 tsc (st.1.reads + 2 * i + 1) - tsc64 tsc (st.1.reads + 2 * i) < 4294967296) →
      st.2 + k * 4294967296 ≤ 18446744073709551616 →
      get_tsc_overhead_loop tsc k st =
        ({ reads := st.1.reads + 2 * k, mmio := st.1.mmio, stores := st.1.stores },
         st.2 + Finset.sum (Finset.range k)
           (fun i => tsc64 tsc (st.1.reads + 2 * i + 1) - tsc64 tsc (st.1.reads + 2 * i))) := by
  intro k
  induction k with
  | zero =>
    intro st _ _
    simp [get_tsc_overhead_loop]
  | succ k ih =>
    intro st h hsum
    have h0 := h 0 (Nat.succ_pos k)
    simp only [Nat.mul_zero, Nat.add_zero] at h0
    have hd := low_half_diff tsc st.1.reads h0.1 h0.2
    have hstep : get_tsc_overhead_body tsc st =
        ({ reads := st.1.reads + 2, mmio := st.1.mmio, stores := st.1.stores },
         st.2 + (tsc64 tsc (st.1.reads + 1) - tsc64 tsc st.1.reads)) := by
      rw [get_tsc_overhead_body_eq, hd, Nat.mod_eq_of_lt (by omega)]
    rw [get_tsc_overhead_loop, hstep, ih]
    · simp only [Finset.sum_range_succ', Nat.mul_zero, Nat.add_zero]
      congr 1
      · congr 1
        omega
      · have e : ∀ i, st.1.reads + 2 + 2 * i = st.1.reads + 2 * (i + 1) := by
          intro i; omega
        simp only [e]
        omega
    · intro i hi
      have := h (i + 1) (by omega)
      rw [show st.1.reads + 2 * (i + 1) = st.1.reads + 2 + 2 * i by omega] at this
      exact this
    · simp only
      omega

theorem sum_range_le (f : Nat → Nat) (B : Nat) :
    ∀ k, (∀ i, i < k → f i < B) → Finset.sum (Finset.range k) f ≤ k * (B - 1) := by
  intro k
  induction k with
  | zero => intro _; simp
  | succ k ih =>
    intro h
    rw [Finset.sum_range_succ]
    have h1 := ih (fun i hi => h i (by omega))
    have h2 := h k (by omega)
    have e : (k + 1) * (B - 1) = k * (B - 1) + (B - 1) := by ring
    rw [e]
    exact Nat.add_le_add h1 (by omega)

theorem tsc64_wrap (k : Nat) (h : k < 3000000) :
    tsc64 tsc_wrap k = 4294967251 + 10 * k := by
  unfold tsc64 tsc_wrap
  have h1 : (4294967251 + 10 * k) / 4294967296 < 4294967296 := by omega
  simp only [Nat.mod_mod, Nat.mod_eq_of_lt h1]
  omega

/-- C10: let `start i` and `end i` be the 64-bit counter values (`EDX:EAX`) of the
opening and the closing read of pass `i` of the calibration loop (reads `4 + 2 * i` and
`5 + 2 * i` after the four warm-up reads).  If `0 ≤ end i - start i < 2^32` for each of
the 1,000,000 passes, `get_tsc_overhead`, which subtracts only the low halves modulo
`2^32`, returns exactly `(Σ i, (end i - start i)) / 1000000`; that sum is below `2^64`
and the quotient is below `2^32`, so neither the `unsigned long` sum nor the
`unsigned int` result wraps. -/
theorem get_tsc_overhead_average (tsc : Nat → Nat × Nat) (c : cpu)
    (h : ∀ i, i < 1000000 →
      tsc64 tsc (c.reads + 4 + 2 * i) ≤ tsc64 tsc (c.reads + 4 + 2 * i + 1) ∧
      tsc64 tsc (c.reads + 4 + 2 * i + 1) - tsc64 tsc (c.reads + 4 + 2 * i) < 4294967296) :
    (get_tsc_overhead tsc c).1 =
      Finset.sum (Finset.range 1000000)
        (fun i => tsc64 tsc (c.reads + 4 + 2 * i + 1) - tsc64 tsc (c.reads + 4 + 2 * i))
        / 1000000 ∧
    Finset.sum (Finset.range 1000000)
        (fun i => tsc64 tsc (c.reads + 4 + 2 * i + 1) - tsc64 tsc (c.reads + 4 + 2 * i))
      < 18446744073709551616 ∧
    Finset.sum (Finset.range 1000000)
        (fun i => tsc64 tsc (c.reads + 4 + 2 * i + 1) - tsc64 tsc (c.reads + 4 + 2 * i))
        / 1000000 < 4294967296 := by
  have hspec := get_tsc_overhead_loop_spec tsc 1000000
    ({ reads := c.reads + 4, mmio := c.mmio, stores := c.stores }, 0) h (by norm_num)
  have hle := sum_range_le
    (fun i => tsc64 tsc (c.reads + 4 + 2 * i + 1) - tsc64 tsc (c.reads + 4 + 2 * i))
    4294967296 1000000 (fun i hi => (h i hi).2)
  generalize Finset.sum (Finset.range 1000000)
    (fun i => tsc64 tsc (c.reads + 4 + 2 * i + 1) - tsc64 tsc (c.reads + 4 + 2 * i)) = S
    at hspec hle ⊢
  have hq : S / 1000000 < 4294967296 := by omega
  refine ⟨?_, by omega, hq⟩
  simp only [get_tsc_overhead, OVERHEAD_MEASURE_LOOPS, warmup_eq, hspec, Nat.zero_add]
  exact Nat.mod_eq_of_lt hq

theorem get_tsc_overhead_average_witness :
    (tsc_wrap 5).2 < (tsc_wrap 4).2 ∧
    (get_tsc_overhead tsc_wrap cpu0).1 =
      Finset.sum (Finset.range 1000000)
        (fun i => tsc64 tsc_wrap (cpu0.reads + 4 + 2 * i + 1)
          - tsc64 tsc_wrap (cpu0.reads + 4 + 2 * i))
        / 1000000 ∧
    Finset.sum (Finset.range 1000000)
        (fun i => tsc64 tsc_wrap (cpu0.reads + 4 + 2 * i + 1)
          - tsc64 tsc_wrap (cpu0.reads + 4 + 2 * i))
      < 18446744073709551616 ∧
    Finset.sum (Finset.range 1000000)
        (fun i => tsc64 tsc_wrap (cpu0.reads + 4 + 2 * i + 1)
          - tsc64 tsc_wrap (cpu0.reads + 4 + 2 * i))
        / 1000000 < 4294967296 :=
  ⟨by decide,
   get_tsc_overhead_average tsc_wrap cpu0 (by
    intro i hi
    rw [tsc64_wrap _ (by simp only [cpu0]; omega), tsc64_wrap _ (by simp only [cpu0]; omega)]
    omega)⟩

/-! ### Further properties -/

/-- X1: in every reachable session, allocation failures included, the byte length
reported to the export path is `loops * 16`, `loops` is at most 10,000,000, and a live
result buffer has exactly that byte length as capacity. -/
theorem reachable_reported_size (s : pcielat_priv) (h : Reachable s) :
    s.cur_resdata_size_in_bytes = s.options.loops * 16 ∧
    s.options.loops ≤ 10000000 ∧
    (∀ d, s.result_data = ptr.mem d →
      s.result_data.capacity = s.cur_resdata_size_in_bytes) := by
  obtain ⟨i1, i2, _, i4⟩ := reachable_inv s h
  refine ⟨i1, i2, ?_⟩
  intro d hd
  have := i4 d hd
  rw [hd, i1]
  simp only [ptr.capacity, ptr.cells, sizeof_result_data_t]
  omega

theorem reachable_reported_size_witness :
    priv3.cur_resdata_size_in_bytes = priv3.options.loops * 16 ∧
    priv3.options.loops ≤ 10000000 ∧
    (∀ d, priv3.result_data = ptr.mem d →
      priv3.result_data.capacity = priv3.cur_resdata_size_in_bytes) :=
  reachable_reported_size priv3
    (Reachable.loops_store heap7 priv_fresh 3 2 (Reachable.probe 1 _ _))

/-- X2: when the selected BAR is mapped with a length of at least 4 bytes, the range
check of `pcielat_measure_store` is exact: with `loops ≠ 0` and a `u32` offset such that
`bar_offset + 4 > len`, the store returns `-EINVAL` and neither the session nor the
hardware record changes. -/
theorem measure_store_range_check (tsc : Nat → Nat × Nat) (priv : pcielat_priv) (c : cpu)
    (count : Nat) (b : bar_t)
    (hloops : priv.options.loops ≠ 0)
    (hb : priv.bar[priv.options.target_bar]? = some b)
    (hlen : 4 ≤ b.len)
    (hoff : (priv.options.bar_offset : Int) + 4 > b.len) :
    pcielat_measure_store tsc priv c count = some (-EINVAL, priv, c) := by
  have hconv : priv.options.bar_offset > to_u32 (b.len - 4) := by
    unfold to_u32
    omega
  unfold pcielat_measure_store
  simp only [if_neg hloops, hb, if_neg (show ¬ b.len < 0 by omega), if_pos hconv]

theorem measure_store_range_check_witness :
    pcielat_measure_store tsc_demo (pcielat_bar_offset_store priv3 4096 2).2 cpu0 2 =
      some (-EINVAL, (pcielat_bar_offset_store priv3 4096 2).2, cpu0) :=
  measure_store_range_check tsc_demo (pcielat_bar_offset_store priv3 4096 2).2 cpu0 2
    { len := 4096, addr := 65536 } (by decide) (by decide) (by decide) (by decide)

/-- X3: `check_tsc_invariant` returns 1 whatever the two CPUID leaves report, since it
tests `edx | mask` and not `edx & mask`. -/
theorem check_tsc_invariant_always (cpuid : Nat → Nat) : check_tsc_invariant cpuid = 1 := by
  have h1 : (cpuid 0x80000001 % 4294967296) ||| 0x8000000 ≠ 0 := by
    intro h
    have := congrArg (fun x => x.testBit 27) h
    simp only [Nat.testBit_lor, Nat.zero_testBit, Bool.or_eq_false_iff] at this
    exact absurd this.2 (by decide)
  have h2 : (cpuid 0x80000007 % 4294967296) ||| 0x100 ≠ 0 := by
    intro h
    have := congrArg (fun x => x.testBit 8) h
    simp only [Nat.testBit_lor, Nat.zero_testBit, Bool.or_eq_false_iff] at this
    exact absurd this.2 (by decide)
  unfold check_tsc_invariant
  rw [if_pos h1, if_pos h2]

end PcieLat
